import Mathlib

/-!
Verification development for the smart-home-energy-monitor repository.

The definitions below are shallow embeddings of the program's source:

* `computeEnergyWh`, `dailyEnergyKWh`, `totalEnergyKWh` — the
  piecewise-constant energy integrator, the per-day aggregation and the
  whole-window total of the dashboard
  (`src/frontend/src/pages/RichDashboard.tsx` and the variants in
  `src/unnamed/part_003` / `src/unnamed/part_004`).
* `validateBusinessRules`, `runIngestSingle`, `runIngestBatch`,
  `runDeleteOld`, `runGetReadings`, `runFindTelemetry` — the telemetry
  service of `src/backend/src/telemetry/telemetry.service.ts`.
* `emitNewTelemetry`, `controllerIngestSingle` — the fan-out gateway
  (`telemetry.gateway.ts`) and the ingestion controller that calls it.

Timestamps are modelled as integer milliseconds since the epoch, numeric
sample values as rationals.  Effectful collaborators (Mongo, socket.io)
are modelled by explicit state passing (the store is a list of records)
and by oracle arguments carrying the collaborator's outcome.
-/

/-! ## Generic stable insertion sort

JavaScript's `Array.prototype.sort` and Mongo's single-key sort are
modelled by a stable insertion sort parameterised by a boolean
"less-or-equal" test: a new element is inserted after every element
already ordered no later than it, which preserves the original relative
order of ties. -/

def insertLe {α : Type} (le : α → α → Bool) (x : α) : List α → List α
  | [] => [x]
  | y :: ys => if le y x then y :: insertLe le x ys else x :: y :: ys

def sortLe {α : Type} (le : α → α → Bool) (l : List α) : List α :=
  l.foldl (fun acc x => insertLe le x acc) []

/-! ## Frontend energy integrator (`RichDashboard.tsx`)

`Reading` models one enriched telemetry reading as consumed by the
dashboard's integrator: `t` is `new Date(r.timestamp).getTime()` in
milliseconds, `v` the numeric power value in watts. -/

structure Reading where
  deviceId : String
  t : Int
  v : Rat
deriving DecidableEq, Repr

/-- Ascending comparator used by `arr.sort((a, b) => a.t - b.t)`. -/
def leT (a b : Reading) : Bool := decide (a.t ≤ b.t)

/-- The distinct device ids of a reading list in order of first
occurrence: the key order of the `byDevice` JavaScript `Map`, which is
populated by one left-to-right pass over the filtered readings. -/
def firstKeys : List Reading → List String
  | [] => []
  | r :: rest => r.deviceId :: (firstKeys rest).filter (fun k => k != r.deviceId)

/-- The window filter of `computeEnergyWh`: readings with
`t < startMs || t > endMs` are skipped. -/
def inWindow (startMs endMs : Int) (r : Reading) : Bool :=
  !(decide (r.t < startMs) || decide (endMs < r.t))

/-- The inner integration loop of `computeEnergyWh`: for index `i`,
`nextT` is the next reading's `t` (or `endMs` for the last one),
the held interval is `[max(t, startMs), min(nextT, endMs))`, and a
contribution `v * hours` is accumulated only when the interval is
non-empty (`toT > fromT`). -/
def integrateWh (startMs endMs : Int) : List Reading → Rat
  | [] => 0
  | r :: rest =>
    let nextT : Int := match rest with
      | [] => endMs
      | q :: _ => q.t
    let fromT := max r.t startMs
    let toT := min nextT endMs
    (if fromT < toT then r.v * ((toT - fromT : Int) : Rat) / 3600000 else 0) +
      integrateWh startMs endMs rest

/-- Source function `computeEnergyWh(startMs, endMs)` from `RichDashboard.tsx`: filter the
readings to the window, group them by device (first-occurrence key
order, original relative order within each group), sort each group
ascending by timestamp and integrate piecewise-constantly, summing the
per-device totals (in Wh). -/
def computeEnergyWh (readings : List Reading) (startMs endMs : Int) : Rat :=
  let fl := readings.filter (inWindow startMs endMs)
  (firstKeys fl).foldl
    (fun acc d =>
      acc + integrateWh startMs endMs (sortLe leT (fl.filter (fun r => r.deviceId == d))))
    0

/-- Local-midnight start of day number `d` (days modelled as uniform
86,400,000 ms spans; `new Date(y, m, d, 0, 0, 0, 0).getTime()`). -/
def dayStartMs (d : Int) : Int := d * 86400000

/-- End-of-day instant `23:59:59.999` of day `d`
(`new Date(y, m, d, 23, 59, 59, 999).getTime()`). -/
def dayEndMs (d : Int) : Int := d * 86400000 + 86399999

/-- The inclusive day walk `while (cur <= last) ... cur.setDate(+1)`. -/
def dayRange (ds de : Int) : List Int :=
  if ds ≤ de then (List.range ((de - ds).toNat + 1)).map (fun i => ds + i) else []

/-- Source value `dailyEnergyData` from `RichDashboard.tsx`: one kWh figure per day of
the inclusive range.  With no readings the zero-filled list is built
directly; otherwise each day is integrated over
`[dayStart, dayEnd] = [00:00:00.000, 23:59:59.999]` and divided by 1000. -/
def dailyEnergyKWh (readings : List Reading) (ds de : Int) : List Rat :=
  if readings.isEmpty then (dayRange ds de).map (fun _ => 0)
  else (dayRange ds de).map (fun d => computeEnergyWh readings (dayStartMs d) (dayEndMs d) / 1000)

/-- Source value `totalEnergyKWh` of the dashboard
(`src/unnamed/part_003` lines 245-293, and the variant
`src/unnamed/part_004` lines 262-316): group the window's readings by
device, sort each group ascending and integrate the held intervals
`[max(t, windowStart), min(next or windowEnd, windowEnd))` — the loop is
the same `computeEnergyWh` pipeline (part_004 literally calls it) —
then report kWh = Wh / 1000.  The source applies `.toFixed(2)` to this
value for display only; the embedding keeps the full-precision quantity
the spec's "up to presentation rounding" comparison refers to. -/
def totalEnergyKWh (readings : List Reading) (startMs endMs : Int) : Rat :=
  computeEnergyWh readings startMs endMs / 1000

/-- The per-sample held-interval energy stated by the spec: sample `i`
with value `v_i` at `t_i` contributes `v_i` times the length in hours of
`[max(t_i, windowStart), min(t_{i+1} or windowEnd, windowEnd))`, the
final sample being held to `windowEnd`.  Stated from the spec's words,
to be compared with the source's `computeEnergyWh`. -/
def heldEnergySpecWh (startMs endMs : Int) : List Reading → Rat
  | [] => 0
  | r :: rest =>
    let nextT : Int := match rest with
      | [] => endMs
      | q :: _ => q.t
    r.v * ((min nextT endMs - max r.t startMs : Int) : Rat) / 3600000 +
      heldEnergySpecWh startMs endMs rest

/-! ## Backend data model (`telemetry.service.ts`)

`CreateTelemetryDto` models one ingestion input; `TelemetryRec` models a
persisted document of the `Telemetry` schema (`timestamps: true` adds
`createdAt`).  Timestamps are integer milliseconds; the DTO's ISO-8601
string is modelled by the instant it denotes. -/

structure CreateTelemetryDto where
  deviceId : String
  category : String
  value : Rat
  status : Bool
  timestamp : Int
deriving DecidableEq, Repr

structure TelemetryRec where
  deviceId : String
  category : String
  value : Rat
  status : Bool
  timestamp : Int
  createdAt : Int
deriving DecidableEq, Repr

structure Device where
  deviceId : String
  name : String
  type : String
  room : String
deriving DecidableEq, Repr

instance {ε α : Type} [DecidableEq ε] [DecidableEq α] : DecidableEq (Except ε α) := fun
  | .ok a, .ok b => decidable_of_iff (a = b) (by simp)
  | .error e, .error f => decidable_of_iff (e = f) (by simp)
  | .ok _, .error _ => isFalse (by simp)
  | .error _, .ok _ => isFalse (by simp)

/-- ASCII case folding of one character code (the effect of the regex
`i` flag on the `[A-Za-z]` range). -/
def lowerCode (c : Char) : Nat :=
  if 65 ≤ c.toNat && c.toNat ≤ 90 then c.toNat + 32 else c.toNat

/-- Case-insensitive exact string comparison: the anchored
case-insensitive regex `^<escaped literal>$` matches exactly the strings
equal to the literal up to case. -/
def eqCI (s t : String) : Bool :=
  s.toList.map lowerCode == t.toList.map lowerCode

/-- A whitespace character as removed by `String.prototype.trim()`
(the claims only exercise ASCII whitespace). -/
def isWsChar (c : Char) : Bool :=
  c == ' ' || c == '\t' || c == '\n' || c == '\r'

/-- Model of `s.trim()`: strip leading and trailing whitespace. -/
def trimStr (s : String) : String :=
  ⟨((s.toList.dropWhile isWsChar).reverse.dropWhile isWsChar).reverse⟩

/-- One year in milliseconds: `365 * 24 * 60 * 60 * 1000`. -/
def oneYearMs : Int := 31536000000

/-- A character allowed by the device-id regex `^[a-zA-Z0-9_-]+$`. -/
def deviceIdChar (c : Char) : Bool :=
  (decide ('a' ≤ c) && decide (c ≤ 'z')) ||
  (decide ('A' ≤ c) && decide (c ≤ 'Z')) ||
  (decide ('0' ≤ c) && decide (c ≤ '9')) ||
  c == '_' || c == '-'

/-- The regex `^[a-zA-Z0-9_-]+$`: at least one character, all from the class. -/
def deviceIdOk (s : String) : Bool :=
  !s.isEmpty && s.toList.all deviceIdChar

/-- The check `data.value < -1000000 || data.value > 1000000` fails the value rule. -/
def valueOk (v : Rat) : Bool := !(decide (v < -1000000) || decide (1000000 < v))

/-- The check `timestamp < oneYearAgo || timestamp > oneYearFromNow` fails the
timestamp check. -/
def timestampOk (ts now : Int) : Bool :=
  !(decide (ts < now - oneYearMs) || decide (now + oneYearMs < ts))

/-- The batch error tag: `index !== undefined ? `Record ${index + 1}: ` : ''`. -/
def indexTag : Option Nat → String
  | none => ""
  | some i => "Record " ++ toString (i + 1) ++ ": "

/-- Source method `TelemetryService.validateBusinessRules(data, index?)`.  Returns
`none` on success, `some message` for the violation raised as a
`BadRequestException`; the three checks run in source order and the
first failure wins. -/
def validateBusinessRules (d : CreateTelemetryDto) (index : Option Nat) (now : Int) :
    Option String :=
  if !valueOk d.value then
    some (indexTag index ++ "Value must be between -1,000,000 and 1,000,000")
  else if !timestampOk d.timestamp now then
    some (indexTag index ++ "Timestamp appears to be invalid")
  else if !deviceIdOk d.deviceId then
    some (indexTag index ++ "Device ID contains invalid characters")
  else none

/-- Source method `TelemetryService.ingestSingle(data)`: run the business-rule
validation, then persist (`new this.telemetryModel(data); save()`).
There is no other admission step between validation and `save` in the
source.  The pair carries the call's outcome and the store after the
call; a thrown validation error leaves the store untouched. -/
def runIngestSingle (d : CreateTelemetryDto) (now : Int) (store : List CreateTelemetryDto) :
    Except String CreateTelemetryDto × List CreateTelemetryDto :=
  match validateBusinessRules d none now with
  | some e => (.error e, store)
  | none => (.ok d, store ++ [d])

/-- The `batch.data.forEach((data, index) => validateBusinessRules(data, index))`
loop: the first record whose validation throws aborts the loop with its
(0-based `index`, 1-based message) error. -/
def firstBatchError (now : Int) : Nat → List CreateTelemetryDto → Option String
  | _, [] => none
  | i, d :: rest =>
    match validateBusinessRules d (some i) now with
    | some e => some e
    | none => firstBatchError now (i + 1) rest

/-- Source method `TelemetryService.ingestBatch(batch)`: reject more than 1000 records,
validate every record in order (first failure aborts before any write),
then persist all records via `insertMany` and return the saved list. -/
def runIngestBatch (batch : List CreateTelemetryDto) (now : Int)
    (store : List CreateTelemetryDto) :
    Except String (List CreateTelemetryDto) × List CreateTelemetryDto :=
  if batch.length > 1000 then
    (.error "Batch size cannot exceed 1000 records", store)
  else
    match firstBatchError now 0 batch with
    | some e => (.error e, store)
    | none => (.ok batch, store ++ batch)

/-- Source method `TelemetryService.deleteOldTelemetry(daysToKeep)`: out-of-range input
(`daysToKeep <= 0 || daysToKeep > 365`) is rejected without touching the
store; otherwise `deleteMany({timestamp: {$lt: cutoff}})` removes the
records strictly older than `now − daysToKeep` days and the deleted
count is returned. -/
def runDeleteOld (daysToKeep now : Int) (store : List TelemetryRec) :
    Except String Nat × List TelemetryRec :=
  if decide (daysToKeep ≤ 0) || decide (365 < daysToKeep) then
    (.error "Days to keep must be between 1 and 365", store)
  else
    let cutoff := now - daysToKeep * 86400000
    ((.ok (store.filter (fun r => decide (r.timestamp < cutoff))).length),
      store.filter (fun r => !decide (r.timestamp < cutoff)))

/-- Descending comparator of `.sort({ timestamp: -1 })`. -/
def leTsDesc (a b : TelemetryRec) : Bool := decide (b.timestamp ≤ a.timestamp)

/-- Source method `TelemetryService.getReadings(deviceId, startTime?, endTime?, limit)`:
a `limit` above 1000 is silently capped (never an error), the store is
filtered by trimmed device id and the optional inclusive time bounds,
sorted descending by timestamp, and truncated to `limit` rows.
(A non-positive limit is the driver's "no limit", not exercised here.) -/
def runGetReadings (deviceId : String) (startTime endTime : Option Int) (limit : Int)
    (store : List TelemetryRec) : List TelemetryRec :=
  let lim := if limit > 1000 then 1000 else limit
  let filtered := store.filter (fun r =>
    r.deviceId == trimStr deviceId &&
    (match startTime with | some a => decide (a ≤ r.timestamp) | none => true) &&
    (match endTime with | some b => decide (r.timestamp ≤ b) | none => true))
  let sorted := sortLe leTsDesc filtered
  if decide (0 < lim) then sorted.take lim.toNat else sorted

/-! ## Query/filter engine (`TelemetryService.findTelemetry`) -/

structure TFilters where
  deviceId : Option String
  deviceType : Option String
  room : Option String
  startTime : Option Int
  endTime : Option Int
deriving Repr

/-- Models the `x?.trim()` truthiness idiom: an absent or
whitespace-only string behaves as no filter, otherwise the trimmed
value is used. -/
def optTrimNonempty : Option String → Option String
  | none => none
  | some s => let t := trimStr s; if t == "" then none else some t

/-- If both bounds are given and inverted (`startDate > endDate`), swap
them; a missing bound stays open. -/
def swapBounds : Option Int → Option Int → Option Int × Option Int
  | some a, some b => if b < a then (some b, some a) else (some a, some b)
  | a, b => (a, b)

/-- The `$gte`/`$lte` time criteria applied to one instant. -/
def inTimeRange (s e : Option Int) (t : Int) : Bool :=
  (match s with | some a => decide (a ≤ t) | none => true) &&
  (match e with | some b => decide (t ≤ b) | none => true)

/-- The test `Object.keys(timeCriteria).length > 0`. -/
def hasTimeCriteria (s e : Option Int) : Bool := s.isSome || e.isSome

/-- The flag `requiresDeviceJoin = Boolean(deviceType?.trim() || room?.trim())`. -/
def needsJoin (f : TFilters) : Bool :=
  (optTrimNonempty f.deviceType).isSome || (optTrimNonempty f.room).isSome

/-- The optional exact `deviceId` criterion. -/
def matchesDeviceId (did : Option String) (r : TelemetryRec) : Bool :=
  match did with
  | some v => r.deviceId == v
  | none => true

/-- Source method `TelemetryService.findTelemetry(filters)`.

The join branch (`deviceType` or `room` present) builds an aggregation
pipeline: `$match` on device id and on `__ts = $ifNull [timestamp,
createdAt]` (the schema requires `timestamp`, so `__ts` is the primary
timestamp), `$lookup`/`$unwind` against the device registry, a
post-lookup `$match` on `device.type` (exact) and `device.room`
(anchored case-insensitive regex on the escaped literal, i.e.
case-insensitive equality), and a `$project` back to the telemetry
fields.  The pipeline contains no `$sort` stage, so documents keep
store order.

The simple branch filters by device id and by `$or` of the two
timestamps against the criteria, then sorts `{ timestamp: -1 }`. -/
def runFindTelemetry (f : TFilters) (store : List TelemetryRec) (devices : List Device) :
    List TelemetryRec :=
  let sb := swapBounds f.startTime f.endTime
  let s := sb.1
  let e := sb.2
  let did := optTrimNonempty f.deviceId
  if needsJoin f then
    let matched := store.filter (fun r =>
      matchesDeviceId did r && (!hasTimeCriteria s e || inTimeRange s e r.timestamp))
    let joined := matched.flatMap (fun r =>
      (devices.filter (fun d => d.deviceId == r.deviceId)).map (fun d => (r, d)))
    let post := joined.filter (fun p =>
      (match optTrimNonempty f.deviceType with
        | some ty => p.2.type == ty
        | none => true) &&
      (match optTrimNonempty f.room with
        | some rm => eqCI p.2.room rm
        | none => true))
    post.map (fun p => p.1)
  else
    let matched := store.filter (fun r =>
      matchesDeviceId did r &&
      (!hasTimeCriteria s e || (inTimeRange s e r.timestamp || inTimeRange s e r.createdAt)))
    sortLe leTsDesc matched

/-! ## Fan-out gateway and ingestion controller

`TelemetryGateway.emitNewTelemetry(payload)` wraps only the construction
of the log preview (`JSON.stringify(payload).slice(0, 200)`) in
`try/catch`; the broadcast itself, `this.server.emit('telemetry:new',
payload)`, runs after and outside the `try`.  Both fallible steps are
modelled by oracle outcomes: `previewResult` is the preview string or
the exception thrown while building it, `emitResult` the outcome of the
socket broadcast.  The function returns the log lines it wrote and the
outcome seen by its caller. -/

def emitNewTelemetry (previewResult : Except String String)
    (emitResult : Except String Unit) : List String × Except String Unit :=
  let logs := match previewResult with
    | .ok p => ["Emitting telemetry:new -> " ++ p]
    | .error _ => ["Emitting telemetry:new"]
  (logs, emitResult)

/-- Source method `TelemetryController.ingestSingle` (the variant that fans out): await
the service, call `emitNewTelemetry(saved)`, return the saved record.
Any exception escaping `emitNewTelemetry` escapes the controller. -/
def controllerIngestSingle (serviceResult : Except String CreateTelemetryDto)
    (previewResult : Except String String) (emitResult : Except String Unit) :
    Except String CreateTelemetryDto :=
  match serviceResult with
  | .error e => .error e
  | .ok saved =>
    match (emitNewTelemetry previewResult emitResult).2 with
    | .error e => .error e
    | .ok _ => .ok saved

/-- The `nextT` of the integration loop: the following reading's
timestamp, or `endMs` for the last reading. -/
def nextTOf (e : Int) : List Reading → Int
  | [] => e
  | q :: _ => q.t

/-! ## Supporting lemmas -/

theorem mem_insertLe {α : Type} (le : α → α → Bool) (x a : α) (l : List α) :
    a ∈ insertLe le x l ↔ a = x ∨ a ∈ l := by
  induction l with
  | nil => simp [insertLe]
  | cons y ys ih =>
    by_cases h : le y x = true
    · simp [insertLe, h, ih]
      try tauto
    · simp [insertLe, h]
      try tauto

theorem insertLe_of_all_le {α : Type} (le : α → α → Bool) (x : α) (l : List α)
    (h : ∀ a ∈ l, le a x = true) : insertLe le x l = l ++ [x] := by
  induction l with
  | nil => rfl
  | cons y ys ih =>
    have hy : le y x = true := h y (List.mem_cons_self y ys)
    simp [insertLe, hy]
    exact ih fun a ha => h a (List.mem_cons_of_mem y ha)

theorem foldl_insertLe_sorted {α : Type} (le : α → α → Bool) (l acc : List α)
    (hacc : ∀ a ∈ acc, ∀ b ∈ l, le a b = true)
    (hl : List.Pairwise (fun a b => le a b = true) l) :
    List.foldl (fun acc x => insertLe le x acc) acc l = acc ++ l := by
  induction l generalizing acc with
  | nil => simp
  | cons x xs ih =>
    have hstep : insertLe le x acc = acc ++ [x] :=
      insertLe_of_all_le le x acc fun a ha => hacc a ha x (List.mem_cons_self x xs)
    have hrest : List.foldl (fun acc x => insertLe le x acc) (acc ++ [x]) xs =
        (acc ++ [x]) ++ xs := by
      refine ih (acc ++ [x]) ?_ (List.pairwise_cons.mp hl).2
      intro a ha b hb
      rcases List.mem_append.mp ha with h1 | h2
      · exact hacc a h1 b (List.mem_cons_of_mem x hb)
      · have hax : a = x := by simpa using h2
        subst hax
        exact (List.pairwise_cons.mp hl).1 b hb
    simp only [List.foldl_cons, hstep, hrest]
    simp

theorem sortLe_of_sorted {α : Type} (le : α → α → Bool) (l : List α)
    (hl : List.Pairwise (fun a b => le a b = true) l) :
    sortLe le l = l := by
  have h := foldl_insertLe_sorted le l [] (by simp) hl
  simpa [sortLe] using h

theorem insertLe_pairwise {α : Type} (le : α → α → Bool)
    (htot : ∀ a b, le a b = true ∨ le b a = true)
    (htrans : ∀ a b c, le a b = true → le b c = true → le a c = true)
    (x : α) (l : List α)
    (hl : List.Pairwise (fun a b => le a b = true) l) :
    List.Pairwise (fun a b => le a b = true) (insertLe le x l) := by
  induction l with
  | nil => simp [insertLe]
  | cons y ys ih =>
    rcases List.pairwise_cons.mp hl with ⟨hy, hys⟩
    by_cases h : le y x = true
    · have hrec := ih hys
      simp only [insertLe, h, if_pos]
      refine List.pairwise_cons.mpr ⟨?_, hrec⟩
      intro b hb
      rcases (mem_insertLe le x b ys).mp hb with rfl | hbmem
      · exact h
      · exact hy b hbmem
    · have hxy : le x y = true := (htot x y).resolve_right (by simpa using h)
      simp only [insertLe, h, if_neg, Bool.false_eq_true, not_false_iff]
      refine List.pairwise_cons.mpr ⟨?_, hl⟩
      intro b hb
      rcases List.mem_cons.mp hb with rfl | hbmem
      · exact hxy
      · exact htrans x y b hxy (hy b hbmem)

theorem sortLe_pairwise {α : Type} (le : α → α → Bool)
    (htot : ∀ a b, le a b = true ∨ le b a = true)
    (htrans : ∀ a b c, le a b = true → le b c = true → le a c = true)
    (l : List α) :
    List.Pairwise (fun a b => le a b = true) (sortLe le l) := by
  suffices h : ∀ (l acc : List α), List.Pairwise (fun a b => le a b = true) acc →
      List.Pairwise (fun a b => le a b = true)
        (List.foldl (fun acc x => insertLe le x acc) acc l) by
    exact h l [] (by simp)
  intro l
  induction l with
  | nil => intro acc hacc; simpa using hacc
  | cons x xs ih =>
    intro acc hacc
    simp only [List.foldl_cons]
    exact ih _ (insertLe_pairwise le htot htrans x acc hacc)


theorem integrateWh_cons (s e : Int) (r : Reading) (rest : List Reading) :
    integrateWh s e (r :: rest) =
      (if max r.t s < min (nextTOf e rest) e then
        r.v * ((min (nextTOf e rest) e - max r.t s : Int) : Rat) / 3600000 else 0) +
      integrateWh s e rest := by
  cases rest <;> rfl

theorem heldEnergySpecWh_cons (s e : Int) (r : Reading) (rest : List Reading) :
    heldEnergySpecWh s e (r :: rest) =
      r.v * ((min (nextTOf e rest) e - max r.t s : Int) : Rat) / 3600000 +
      heldEnergySpecWh s e rest := by
  cases rest <;> rfl

theorem filter_inWindow_eq_self (l : List Reading) (s e : Int)
    (h : ∀ r ∈ l, s ≤ r.t ∧ r.t ≤ e) :
    l.filter (inWindow s e) = l := by
  refine List.filter_eq_self.mpr ?_
  intro r hr
  have hs := (h r hr).1
  have he := (h r hr).2
  simp [inWindow, not_lt.mpr hs, not_lt.mpr he]

theorem firstKeys_const (l : List Reading) (d : String)
    (hdev : ∀ r ∈ l, r.deviceId = d) (hne : l ≠ []) :
    firstKeys l = [d] := by
  induction l with
  | nil => exact absurd rfl hne
  | cons r rest ih =>
    have hr : r.deviceId = d := hdev r (List.mem_cons_self r rest)
    cases rest with
    | nil => simp [firstKeys, hr]
    | cons q qs =>
      have hrest := ih (fun x hx => hdev x (List.mem_cons_of_mem r hx)) (by simp)
      show r.deviceId :: (firstKeys (q :: qs)).filter (fun k => k != r.deviceId) = [d]
      rw [hrest, hr]
      simp

theorem filter_deviceId_eq_self (l : List Reading) (d : String)
    (hdev : ∀ r ∈ l, r.deviceId = d) :
    l.filter (fun r => r.deviceId == d) = l := by
  refine List.filter_eq_self.mpr ?_
  intro r hr
  simp [hdev r hr]

theorem sortLe_leT_of_sorted (l : List Reading)
    (h : List.Pairwise (fun a b : Reading => a.t ≤ b.t) l) :
    sortLe leT l = l := by
  refine sortLe_of_sorted leT l ?_
  exact h.imp (fun hab => by simpa [leT] using hab)

theorem integrateWh_eq_heldSpec (l : List Reading) (s e : Int)
    (hsorted : List.Pairwise (fun a b : Reading => a.t ≤ b.t) l)
    (hin : ∀ r ∈ l, s ≤ r.t ∧ r.t ≤ e) :
    integrateWh s e l = heldEnergySpecWh s e l := by
  induction l with
  | nil => rfl
  | cons r rest ih =>
    have hr := hin r (List.mem_cons_self r rest)
    have htail : integrateWh s e rest = heldEnergySpecWh s e rest :=
      ih (List.pairwise_cons.mp hsorted).2
        (fun x hx => hin x (List.mem_cons_of_mem r hx))
    have hnext : r.t ≤ nextTOf e rest := by
      cases rest with
      | nil => exact hr.2
      | cons q qs =>
        exact (List.pairwise_cons.mp hsorted).1 q (List.mem_cons_self q qs)
    have hmax : max r.t s = r.t := max_eq_left hr.1
    rw [integrateWh_cons, heldEnergySpecWh_cons, htail, hmax]
    by_cases hlt : r.t < min (nextTOf e rest) e
    · rw [if_pos hlt]
    · have heq : min (nextTOf e rest) e = r.t :=
        le_antisymm (not_lt.mp hlt) (le_min hnext hr.2)
      rw [if_neg hlt, heq]
      simp

theorem computeEnergyWh_single_device (l : List Reading) (d : String) (s e : Int)
    (hdev : ∀ r ∈ l, r.deviceId = d)
    (hin : ∀ r ∈ l, s ≤ r.t ∧ r.t ≤ e) :
    computeEnergyWh l s e = integrateWh s e (sortLe leT l) := by
  rcases List.eq_nil_or_concat l with rfl | hne
  · rfl
  · have hlne : l ≠ [] := by
      rcases hne with ⟨xs, x, rfl⟩
      simp
    simp only [computeEnergyWh, filter_inWindow_eq_self l s e hin,
      firstKeys_const l d hdev hlne, filter_deviceId_eq_self l d hdev,
      List.foldl_cons, List.foldl_nil, zero_add]

theorem validate_eq_none_iff (d : CreateTelemetryDto) (i : Option Nat) (now : Int) :
    validateBusinessRules d i now = none ↔
      (valueOk d.value = true ∧ timestampOk d.timestamp now = true ∧
        deviceIdOk d.deviceId = true) := by
  unfold validateBusinessRules
  by_cases h1 : valueOk d.value <;> by_cases h2 : timestampOk d.timestamp now <;>
    by_cases h3 : deviceIdOk d.deviceId <;> simp [h1, h2, h3]

theorem firstBatchError_none (now : Int) (batch : List CreateTelemetryDto)
    (hvalid : ∀ d ∈ batch, validateBusinessRules d none now = none) :
    ∀ i, firstBatchError now i batch = none := by
  induction batch with
  | nil => intro i; rfl
  | cons d rest ih =>
    intro i
    have hd : validateBusinessRules d (some i) now = none :=
      (validate_eq_none_iff d (some i) now).mpr
        ((validate_eq_none_iff d none now).mp (hvalid d (List.mem_cons_self d rest)))
    simp only [firstBatchError, hd]
    exact ih (fun x hx => hvalid x (List.mem_cons_of_mem d hx)) (i + 1)

theorem firstBatchError_first (now : Int) (pre post : List CreateTelemetryDto)
    (bad : CreateTelemetryDto) (e : String)
    (hpre : ∀ d ∈ pre, validateBusinessRules d none now = none) :
    ∀ i, validateBusinessRules bad (some (i + pre.length)) now = some e →
      firstBatchError now i (pre ++ bad :: post) = some e := by
  induction pre with
  | nil =>
    intro i hbad
    simp only [List.nil_append, firstBatchError]
    simp only [List.length_nil, Nat.add_zero] at hbad
    simp [hbad]
  | cons d rest ih =>
    intro i hbad
    have hd : validateBusinessRules d (some i) now = none :=
      (validate_eq_none_iff d (some i) now).mpr
        ((validate_eq_none_iff d none now).mp (hpre d (List.mem_cons_self d rest)))
    simp only [List.cons_append, firstBatchError, hd]
    refine ih (fun x hx => hpre x (List.mem_cons_of_mem d hx)) (i + 1) ?_
    have harith : i + 1 + rest.length = i + (d :: rest).length := by
      simp [List.length_cons]
      omega
    rw [harith]
    exact hbad

/-! ## Claim theorems -/

/-- Claim C4: for a device's sample sequence sorted ascending by
timestamp within the window, `computeEnergyWh` equals the spec's
held-interval sum: sample `i` contributes `v_i` times the length in
hours of `[max(t_i, windowStart), min(t_{i+1} or windowEnd, windowEnd))`
and the final sample is held to `windowEnd`. -/
theorem c4_integrator_held_intervals (l : List Reading) (d : String) (s e : Int)
    (hdev : ∀ r ∈ l, r.deviceId = d)
    (hsorted : List.Pairwise (fun a b : Reading => a.t ≤ b.t) l)
    (hin : ∀ r ∈ l, s ≤ r.t ∧ r.t ≤ e) :
    computeEnergyWh l s e = heldEnergySpecWh s e l := by
  rw [computeEnergyWh_single_device l d s e hdev hin, sortLe_leT_of_sorted l hsorted]
  exact integrateWh_eq_heldSpec l s e hsorted hin

/-- Witness for C4: the spec scenario — samples (00:00, 100 W) and
(00:30, 200 W) over [00:00, 01:00) give 150 Wh = 0.15 kWh. -/
theorem c4_witness :
    computeEnergyWh [⟨"dev-001", 0, 100⟩, ⟨"dev-001", 1800000, 200⟩] 0 3600000 = 150 ∧
    computeEnergyWh [⟨"dev-001", 0, 100⟩, ⟨"dev-001", 1800000, 200⟩] 0 3600000 / 1000 =
      15 / 100 := by
  have h := c4_integrator_held_intervals
    [⟨"dev-001", 0, 100⟩, ⟨"dev-001", 1800000, 200⟩] "dev-001" 0 3600000
    (by decide) (by decide) (by decide)
  rw [h]
  constructor <;> norm_num [heldEnergySpecWh, nextTOf]

/-- Claim C1 (amended): the daily aggregation and the whole-window
integrator agree when the requested range is a single day — both then
integrate the same window `[dayStart, dayEnd]`.  (For multi-day ranges
the equality fails; see the counterexample.) -/
theorem c1_single_day_tiling (readings : List Reading) (d : Int) :
    (dailyEnergyKWh readings d d).sum =
      totalEnergyKWh readings (dayStartMs d) (dayEndMs d) := by
  have hdr : dayRange d d = [d] := by
    simp [dayRange, List.range_succ]
  by_cases h : readings.isEmpty
  · have hnil : readings = [] := by
      cases readings with
      | nil => rfl
      | cons a b => simp at h
    subst hnil
    simp [dailyEnergyKWh, hdr, totalEnergyKWh, computeEnergyWh, firstKeys]
  · simp [dailyEnergyKWh, h, hdr, totalEnergyKWh]

/-- Counterexample for C1: one 3600 W sample at day-0 midnight over the
two-day range [day 0, day 1].  Every millisecond tick of the window lies
in exactly one day bucket, yet the summed daily energies fall short of
the whole-window total by exactly 86.4 kWh (432/5): the daily
aggregation drops the hold of day 0's last sample across midnight, far
beyond presentation rounding. -/
theorem c1_multiday_cex :
    (dailyEnergyKWh [⟨"dev-001", 0, 3600⟩] 0 1).sum ≠
      totalEnergyKWh [⟨"dev-001", 0, 3600⟩] (dayStartMs 0) (dayEndMs 1) ∧
    totalEnergyKWh [⟨"dev-001", 0, 3600⟩] (dayStartMs 0) (dayEndMs 1) -
      (dailyEnergyKWh [⟨"dev-001", 0, 3600⟩] 0 1).sum = 432 / 5 := by
  constructor <;>
    norm_num [dailyEnergyKWh, totalEnergyKWh, computeEnergyWh, dayRange, dayStartMs,
      dayEndMs, firstKeys, inWindow, sortLe, insertLe, integrateWh, leT, List.range_succ]

/-- Claim C5: the validator's three checks run in order — value range
`[-1,000,000, 1,000,000]`, timestamp within one year of now in both
directions, device id matching `^[A-Za-z0-9_-]+$` — the first failing
check determines the reported violation, and a supplied in-batch index
prefixes the message with the 1-based record number. -/
theorem c5_validator_order (d : CreateTelemetryDto) (i : Option Nat) (now : Int) :
    (valueOk d.value = true ↔ -1000000 ≤ d.value ∧ d.value ≤ 1000000) ∧
    (timestampOk d.timestamp now = true ↔
      now - oneYearMs ≤ d.timestamp ∧ d.timestamp ≤ now + oneYearMs) ∧
    (valueOk d.value = false →
      validateBusinessRules d i now =
        some (indexTag i ++ "Value must be between -1,000,000 and 1,000,000")) ∧
    (valueOk d.value = true → timestampOk d.timestamp now = false →
      validateBusinessRules d i now =
        some (indexTag i ++ "Timestamp appears to be invalid")) ∧
    (valueOk d.value = true → timestampOk d.timestamp now = true →
      deviceIdOk d.deviceId = false →
      validateBusinessRules d i now =
        some (indexTag i ++ "Device ID contains invalid characters")) ∧
    (valueOk d.value = true → timestampOk d.timestamp now = true →
      deviceIdOk d.deviceId = true → validateBusinessRules d i now = none) ∧
    (∀ k : Nat, indexTag (some k) = "Record " ++ toString (k + 1) ++ ": ") ∧
    indexTag none = "" := by
  refine ⟨?_, ?_, ?_, ?_, ?_, ?_, fun k => rfl, rfl⟩
  · constructor
    · intro h
      simp [valueOk, not_lt] at h
      exact ⟨h.1, h.2⟩
    · intro h
      simp [valueOk, not_lt]
      exact ⟨h.1, h.2⟩
  · constructor
    · intro h
      simp [timestampOk, not_lt] at h
      omega
    · intro h
      simp [timestampOk, not_lt]
      omega
  · intro h
    simp [validateBusinessRules, h]
  · intro h1 h2
    simp [validateBusinessRules, h1, h2]
  · intro h1 h2 h3
    simp [validateBusinessRules, h1, h2, h3]
  · intro h1 h2 h3
    simp [validateBusinessRules, h1, h2, h3]

/-- Witness for C5: a record that violates both the value range and the
device-id format reports the value violation (first check wins), tagged
with the 1-based index `Record 2` for in-batch index 1. -/
theorem c5_witness :
    validateBusinessRules ⟨"bad id!", "power", 2000000, true, 0⟩ (some 1) 0 =
      some "Record 2: Value must be between -1,000,000 and 1,000,000" ∧
    deviceIdOk "bad id!" = false := by
  have h := (c5_validator_order ⟨"bad id!", "power", 2000000, true, 0⟩ (some 1) 0).2.2.1
    (by decide)
  rw [h]
  exact ⟨rfl, by decide⟩

/-- Claim C6: a batch (within the 1000-record cap) containing an invalid
record is aborted by the validation pass before any storage write: the
result is the indexed error of the first invalid record and the store is
unchanged. -/
theorem c6_batch_validation_abort (pre post : List CreateTelemetryDto)
    (bad : CreateTelemetryDto) (now : Int) (store : List CreateTelemetryDto) (e : String)
    (hlen : (pre ++ bad :: post).length ≤ 1000)
    (hpre : ∀ d ∈ pre, validateBusinessRules d none now = none)
    (hbad : validateBusinessRules bad (some pre.length) now = some e) :
    runIngestBatch (pre ++ bad :: post) now store = (.error e, store) := by
  have hfe : firstBatchError now 0 (pre ++ bad :: post) = some e := by
    refine firstBatchError_first now pre post bad e hpre 0 ?_
    simpa using hbad
  unfold runIngestBatch
  rw [if_neg (by omega), hfe]

/-- Witness for C6: a 2-record batch whose second record is out of range
errors with `Record 2: ...` and persists nothing. -/
theorem c6_witness :
    runIngestBatch
      [⟨"dev-001", "power", 100, true, 0⟩, ⟨"dev-002", "power", 2000000, true, 0⟩] 0 [] =
      (.error "Record 2: Value must be between -1,000,000 and 1,000,000", []) :=
  c6_batch_validation_abort [⟨"dev-001", "power", 100, true, 0⟩] []
    ⟨"dev-002", "power", 2000000, true, 0⟩ 0 []
    "Record 2: Value must be between -1,000,000 and 1,000,000"
    (by decide) (by decide) (by decide)

/-- Claim C2 (amended): `ingestBatch` never consults the device
registry.  Every batch (within the 1000-record cap) whose records all
pass business-rule validation is persisted in full, whatever device ids
it references: there is no unknown-device drop, no warning path and no
`NoValidRecords` error in the source. -/
theorem c2_batch_ignores_registry (batch : List CreateTelemetryDto) (now : Int)
    (store : List CreateTelemetryDto)
    (hlen : batch.length ≤ 1000)
    (hvalid : ∀ d ∈ batch, validateBusinessRules d none now = none) :
    runIngestBatch batch now store = (.ok batch, store ++ batch) := by
  unfold runIngestBatch
  rw [if_neg (by omega), firstBatchError_none now batch hvalid 0]

/-- Counterexample for C2: the spec scenario — 2 records for registered
devices plus 1 for the unregistered `ghost-1` — persists all 3 records
(not 2) and raises no error: the batch path never resolves device ids
against any registry. -/
theorem c2_unknown_device_cex :
    ("ghost-1" ∉ (["dev-001", "dev-002"] : List String)) ∧
    runIngestBatch
      [⟨"dev-001", "power", 100, true, 0⟩, ⟨"dev-002", "power", 50, true, 0⟩,
        ⟨"ghost-1", "power", 25, true, 0⟩] 0 [] =
      (.ok [⟨"dev-001", "power", 100, true, 0⟩, ⟨"dev-002", "power", 50, true, 0⟩,
          ⟨"ghost-1", "power", 25, true, 0⟩],
        [⟨"dev-001", "power", 100, true, 0⟩, ⟨"dev-002", "power", 50, true, 0⟩,
          ⟨"ghost-1", "power", 25, true, 0⟩]) ∧
    (runIngestBatch
      [⟨"dev-001", "power", 100, true, 0⟩, ⟨"dev-002", "power", 50, true, 0⟩,
        ⟨"ghost-1", "power", 25, true, 0⟩] 0 []).2.length = 3 := by
  refine ⟨by decide, by decide, by decide⟩

/-- Witness for C2 (amended): the 3-record batch above is persisted in
full by the registry-free batch path. -/
theorem c2_witness :
    runIngestBatch
      [⟨"dev-001", "power", 100, true, 5⟩, ⟨"dev-002", "power", 50, true, 5⟩,
        ⟨"ghost-1", "power", 25, true, 5⟩] 5 [] =
      (.ok [⟨"dev-001", "power", 100, true, 5⟩, ⟨"dev-002", "power", 50, true, 5⟩,
          ⟨"ghost-1", "power", 25, true, 5⟩],
        [⟨"dev-001", "power", 100, true, 5⟩, ⟨"dev-002", "power", 50, true, 5⟩,
          ⟨"ghost-1", "power", 25, true, 5⟩]) :=
  c2_batch_ignores_registry
    [⟨"dev-001", "power", 100, true, 5⟩, ⟨"dev-002", "power", 50, true, 5⟩,
      ⟨"ghost-1", "power", 25, true, 5⟩] 5 [] (by decide) (by decide)

/-- Claim C3 (amended): `ingestSingle` performs only business-rule
validation — there is no device-registry existence check and no
`UnknownDevice` rejection in the source: a sample is persisted exactly
when validation passes, whatever its device id. -/
theorem c3_single_ignores_registry (d : CreateTelemetryDto) (now : Int)
    (store : List CreateTelemetryDto) :
    (validateBusinessRules d none now = none →
      runIngestSingle d now store = (.ok d, store ++ [d])) ∧
    (∀ e, validateBusinessRules d none now = some e →
      runIngestSingle d now store = (.error e, store)) := by
  constructor
  · intro h
    unfold runIngestSingle
    rw [h]
  · intro e h
    unfold runIngestSingle
    rw [h]

/-- Counterexample for C3: a valid sample for the unregistered device
`ghost-1` is persisted by `ingestSingle` — no `UnknownDevice` rejection
occurs. -/
theorem c3_unknown_device_cex :
    ("ghost-1" ∉ (["dev-001"] : List String)) ∧
    runIngestSingle ⟨"ghost-1", "power", 100, true, 0⟩ 0 [] =
      (.ok ⟨"ghost-1", "power", 100, true, 0⟩, [⟨"ghost-1", "power", 100, true, 0⟩]) := by
  refine ⟨by decide, by decide⟩

/-- Witness for C3 (amended): a validation-passing sample is persisted,
a validation-failing one is rejected with the unindexed message. -/
theorem c3_witness :
    runIngestSingle ⟨"ghost-1", "power", 100, true, 5⟩ 5 [] =
      (.ok ⟨"ghost-1", "power", 100, true, 5⟩, [⟨"ghost-1", "power", 100, true, 5⟩]) ∧
    runIngestSingle ⟨"dev-001", "power", 2000000, true, 5⟩ 5 [] =
      (.error "Value must be between -1,000,000 and 1,000,000", []) :=
  ⟨(c3_single_ignores_registry ⟨"ghost-1", "power", 100, true, 5⟩ 5 []).1 (by decide),
    (c3_single_ignores_registry ⟨"dev-001", "power", 2000000, true, 5⟩ 5 []).2
      "Value must be between -1,000,000 and 1,000,000" (by decide)⟩

/-- Claim C7 (amended): the find results are sorted by timestamp
descending only on the non-join branch (no `deviceType`/`room` filter);
the aggregation branch used for device-registry joins has no `$sort`
stage and returns records in store order. -/
theorem c7_nojoin_sorted_desc (f : TFilters) (store : List TelemetryRec)
    (devices : List Device) (h : needsJoin f = false) :
    List.Pairwise (fun a b : TelemetryRec => b.timestamp ≤ a.timestamp)
      (runFindTelemetry f store devices) := by
  have htot : ∀ a b : TelemetryRec, leTsDesc a b = true ∨ leTsDesc b a = true := by
    intro a b
    simp only [leTsDesc, decide_eq_true_eq]
    exact le_total b.timestamp a.timestamp
  have htrans : ∀ a b c : TelemetryRec,
      leTsDesc a b = true → leTsDesc b c = true → leTsDesc a c = true := by
    intro a b c hab hbc
    simp only [leTsDesc, decide_eq_true_eq] at *
    exact le_trans hbc hab
  have hs := sortLe_pairwise leTsDesc htot htrans
    (store.filter (fun r =>
      matchesDeviceId (optTrimNonempty f.deviceId) r &&
      (!hasTimeCriteria (swapBounds f.startTime f.endTime).1
          (swapBounds f.startTime f.endTime).2 ||
        (inTimeRange (swapBounds f.startTime f.endTime).1
            (swapBounds f.startTime f.endTime).2 r.timestamp ||
          inTimeRange (swapBounds f.startTime f.endTime).1
            (swapBounds f.startTime f.endTime).2 r.createdAt))))
  simp only [runFindTelemetry, h, Bool.false_eq_true, if_false]
  exact hs.imp (fun hab => by simpa [leTsDesc] using hab)

/-- Counterexample for C7: filtering by room takes the join branch,
which returns the two matching records in store order — ascending
timestamps here, so not sorted descending. -/
theorem c7_join_unsorted_cex :
    runFindTelemetry ⟨none, none, some "kitchen", none, none⟩
      [⟨"d1", "power", 1, true, 1, 1⟩, ⟨"d1", "power", 2, true, 2, 2⟩]
      [⟨"d1", "Lamp", "plug", "Kitchen"⟩] =
      [⟨"d1", "power", 1, true, 1, 1⟩, ⟨"d1", "power", 2, true, 2, 2⟩] ∧
    ¬ List.Pairwise (fun a b : TelemetryRec => b.timestamp ≤ a.timestamp)
      [⟨"d1", "power", 1, true, 1, 1⟩, ⟨"d1", "power", 2, true, 2, 2⟩] := by
  refine ⟨by decide, by decide⟩

/-- Witness for C7 (amended): a deviceId-only query runs the non-join
branch and comes back sorted descending. -/
theorem c7_witness :
    List.Pairwise (fun a b : TelemetryRec => b.timestamp ≤ a.timestamp)
      (runFindTelemetry ⟨some "d1", none, none, none, none⟩
        [⟨"d1", "power", 1, true, 1, 1⟩, ⟨"d1", "power", 2, true, 2, 2⟩] []) :=
  c7_nojoin_sorted_desc ⟨some "d1", none, none, none, none⟩
    [⟨"d1", "power", 1, true, 1, 1⟩, ⟨"d1", "power", 2, true, 2, 2⟩] [] (by decide)

/-- Claim C8 (amended): only failures raised while building the log
preview are swallowed by `emitNewTelemetry`'s `try/catch`; the broadcast
call itself stands outside the `try`, so an error thrown by the socket
emit propagates to the ingestion caller.  The ingestion result is
independent of the preview outcome but not of the emit outcome. -/
theorem c8_emit_outside_try (sr : Except String CreateTelemetryDto)
    (p q : Except String String) (er : Except String Unit)
    (saved : CreateTelemetryDto) (e : String) :
    controllerIngestSingle sr p er = controllerIngestSingle sr q er ∧
    controllerIngestSingle (.ok saved) p (.error e) = .error e ∧
    controllerIngestSingle (.ok saved) p (.ok ()) = .ok saved := by
  refine ⟨?_, rfl, rfl⟩
  cases sr <;> rfl

/-- Counterexample for C8: with the service succeeding, a failure of the
socket broadcast turns the ingestion call's result into that error —
the publish failure propagates instead of being swallowed. -/
theorem c8_publish_failure_cex :
    controllerIngestSingle (.ok ⟨"dev-001", "power", 100, true, 0⟩) (.ok "preview")
        (.error "socket emit failed") = .error "socket emit failed" ∧
    (Except.error "socket emit failed" : Except String CreateTelemetryDto) ≠
      .ok ⟨"dev-001", "power", 100, true, 0⟩ :=
  ⟨rfl, by decide⟩

/-- Claim C9: `deleteOlderThan` with `daysToKeep` in `[1, 365]` deletes
exactly the samples strictly older than `now − daysToKeep` days and
returns their count; out-of-range input is rejected with the store
untouched — never clamped. -/
theorem c9_retention_spec (daysToKeep now : Int) (store : List TelemetryRec) :
    (1 ≤ daysToKeep → daysToKeep ≤ 365 →
      (runDeleteOld daysToKeep now store).1 =
        .ok (store.filter
          (fun r => decide (r.timestamp < now - daysToKeep * 86400000))).length ∧
      ∀ r : TelemetryRec, r ∈ (runDeleteOld daysToKeep now store).2 ↔
        r ∈ store ∧ now - daysToKeep * 86400000 ≤ r.timestamp) ∧
    ((daysToKeep < 1 ∨ 365 < daysToKeep) →
      runDeleteOld daysToKeep now store =
        (.error "Days to keep must be between 1 and 365", store)) := by
  constructor
  · intro h1 h2
    have hc : (decide (daysToKeep ≤ 0) || decide (365 < daysToKeep)) = false := by
      simp only [Bool.or_eq_false_iff, decide_eq_false_iff_not, not_le, not_lt]
      omega
    constructor
    · simp [runDeleteOld, hc]
    · intro r
      simp [runDeleteOld, hc, List.mem_filter, not_lt]
  · intro h
    have hc : (decide (daysToKeep ≤ 0) || decide (365 < daysToKeep)) = true := by
      rcases h with h | h
      · simp only [Bool.or_eq_true, decide_eq_true_eq]
        exact Or.inl (by omega)
      · simp only [Bool.or_eq_true, decide_eq_true_eq]
        exact Or.inr h
    simp [runDeleteOld, hc]

/-- Witness for C9: the spec scenario — `deleteOlderThan(30)` over one
sample 40 days old and one 10 days old deletes exactly the old one and
returns a count of 1; and `deleteOlderThan(400)` is rejected untouched. -/
theorem c9_witness :
    (runDeleteOld 30 0
      [⟨"dev-001", "power", 5, true, -3456000000, -3456000000⟩,
        ⟨"dev-001", "power", 7, true, -864000000, -864000000⟩]).1 = .ok 1 ∧
    (⟨"dev-001", "power", 5, true, -3456000000, -3456000000⟩ : TelemetryRec) ∉
      (runDeleteOld 30 0
        [⟨"dev-001", "power", 5, true, -3456000000, -3456000000⟩,
          ⟨"dev-001", "power", 7, true, -864000000, -864000000⟩]).2 ∧
    (⟨"dev-001", "power", 7, true, -864000000, -864000000⟩ : TelemetryRec) ∈
      (runDeleteOld 30 0
        [⟨"dev-001", "power", 5, true, -3456000000, -3456000000⟩,
          ⟨"dev-001", "power", 7, true, -864000000, -864000000⟩]).2 ∧
    runDeleteOld 400 0 [] = (.error "Days to keep must be between 1 and 365", []) := by
  have h := (c9_retention_spec 30 0
    [⟨"dev-001", "power", 5, true, -3456000000, -3456000000⟩,
      ⟨"dev-001", "power", 7, true, -864000000, -864000000⟩]).1
    (by norm_num) (by norm_num)
  have hout := (c9_retention_spec 400 0 []).2 (by norm_num)
  refine ⟨?_, ?_, ?_, hout⟩
  · rw [h.1]
    decide
  · intro hmem
    have hts := ((h.2 _).mp hmem).2
    norm_num at hts
  · exact (h.2 _).mpr ⟨by decide, by norm_num⟩

/-- Claim C10: a `getReadings` call with `limit > 1000` raises no error:
the limit is silently capped to 1000, every other filter behaves as with
`limit = 1000`, and at most 1000 records come back. -/
theorem c10_limit_capped (deviceId : String) (st et : Option Int) (limit : Int)
    (store : List TelemetryRec) (h : 1000 < limit) :
    runGetReadings deviceId st et limit store =
      runGetReadings deviceId st et 1000 store ∧
    (runGetReadings deviceId st et limit store).length ≤ 1000 := by
  have h1 : (if limit > 1000 then (1000 : Int) else limit) = 1000 := if_pos h
  have h2 : (if (1000 : Int) > 1000 then (1000 : Int) else 1000) = 1000 := by norm_num
  have htail : ∀ l : List TelemetryRec,
      (if decide ((0 : Int) < 1000) = true then l.take (Int.toNat 1000) else l).length ≤
        1000 := by
    intro l
    simp [List.length_take]
  constructor
  · simp only [runGetReadings, h1, h2]
  · simp only [runGetReadings, h1]
    exact htail _

/-- Witness for C10: a call with `limit = 5000` behaves exactly like the
capped call with `limit = 1000` and returns at most 1000 records. -/
theorem c10_witness :
    runGetReadings "d1" none none 5000 [⟨"d1", "power", 1, true, 1, 1⟩] =
      runGetReadings "d1" none none 1000 [⟨"d1", "power", 1, true, 1, 1⟩] ∧
    (runGetReadings "d1" none none 5000 [⟨"d1", "power", 1, true, 1, 1⟩]).length ≤ 1000 :=
  c10_limit_capped "d1" none none 5000 [⟨"d1", "power", 1, true, 1, 1⟩] (by norm_num)
